import Mathlib

/-!
A verification development for the `file-transfer-app` repository
(`src/app.py`), a Flask-based ephemeral file-sharing service.

The embedding is shallow:

* Python `str` is modelled as `List Char` (`PyStr`); Python slicing,
  `str.strip`, `str.split` and indexing are the corresponding list
  operations.  `name[i]` raising `IndexError` is modelled with `Except`.
* The in-memory registry `file_store` (a Python `dict` preserving
  insertion order) is modelled as an ordered association list with
  replace-in-place/append-at-end update semantics (`dictSet`) and
  first-match lookup (`dictGet`).
* Wall-clock time (`datetime.now()`, microsecond precision) is modelled
  as integer microseconds; `time.time()` / `st_mtime` ages used by the
  cleanup loop are modelled as integer seconds.  Float arithmetic on
  `total_seconds()` is replaced by exact integer arithmetic at the same
  precision; `int(x)` on a positive float is floor, i.e. integer
  division here.
* The uploads directory is modelled as the list of file names present
  in it (`file.save` inserts, `Path.unlink` removes, `missing_ok`
  deletion is idempotent).
* `werkzeug.utils.secure_filename` is modelled from its published
  implementation: NFKD-normalise and drop non-ASCII (modelled as an
  ASCII filter), replace the path separator by a space, whitespace-split
  and join with underscores, delete every character outside
  `[A-Za-z0-9_.-]`, and strip leading/trailing `.` and `_`.  The
  Windows reserved-name branch is dead on the POSIX deployment assumed
  by the code.  Display-only helpers (`get_human_size` float
  formatting, HTML rendering) are out of scope per the specification;
  a `FileRecord` keeps the raw byte size instead of the rendered
  string.
-/

namespace FileTransferApp

/-- Python strings as character lists. -/
abbrev PyStr := List Char

/-- Convenience conversion from a Lean string literal. -/
def pstr (s : String) : PyStr := s.toList

/-! ## Configuration constants (src/app.py lines 21-23, 91-92) -/

/-- `MAX_TOTAL_SIZE_BYTES = 100 * 1024 * 1024`. -/
def MAX_TOTAL_SIZE_BYTES : Nat := 100 * 1024 * 1024

/-- `MAX_SINGLE_FILE_SIZE_BYTES = 80 * 1024 * 1024`. -/
def MAX_SINGLE_FILE_SIZE_BYTES : Nat := 80 * 1024 * 1024

/-- `EXPIRATION_SECONDS = 15 * 60` (cleanup loop, seconds). -/
def EXPIRATION_SECONDS : Int := 15 * 60

/-- The 15-minute TTL expressed in microseconds (`timedelta(minutes=15)`
at `datetime` microsecond precision). -/
def TTL_US : Int := 15 * 60 * 1000000

/-! ## Small Python string helpers -/

/-- Python `str.strip()` (whitespace at both ends). -/
def pyStrip (s : PyStr) : PyStr :=
  ((s.dropWhile Char.isWhitespace).reverse.dropWhile Char.isWhitespace).reverse

/-! ## `werkzeug.utils.secure_filename` -/

/-- `filename.encode("ascii", "ignore").decode("ascii")` after NFKD
normalisation: non-ASCII characters are dropped. -/
def ascii_filter (s : PyStr) : PyStr := s.filter (fun c => decide (c.toNat < 128))

/-- `filename.replace(os.sep, " ")` with POSIX `os.sep = "/"`
(`os.path.altsep` is `None` there). -/
def sep_to_space (s : PyStr) : PyStr := s.map (fun c => if c = '/' then ' ' else c)

/-- Helper for Python `str.split()`: split on whitespace runs, dropping
empty pieces; the accumulator holds the current word reversed. -/
def split_ws_aux : PyStr → PyStr → List PyStr
  | [], acc => if acc.isEmpty then [] else [acc.reverse]
  | c :: rest, acc =>
    if c.isWhitespace then
      if acc.isEmpty then split_ws_aux rest [] else acc.reverse :: split_ws_aux rest []
    else split_ws_aux rest (c :: acc)

/-- Python `str.split()` with no argument. -/
def py_split_ws (s : PyStr) : List PyStr := split_ws_aux s []

/-- `"_".join(words)`. -/
def join_underscore (ws : List PyStr) : PyStr := List.intercalate ['_'] ws

/-- Characters kept by `_filename_ascii_strip_re = re.compile(r"[^A-Za-z0-9_.-]")`
(the regex deletes everything else). -/
def allowed_char (c : Char) : Bool :=
  c.isUpper || c.isLower || c.isDigit || c == '_' || c == '.' || c == '-'

/-- Python `str.strip("._")`. -/
def strip_dot_underscore (s : PyStr) : PyStr :=
  ((s.dropWhile (fun c => c == '.' || c == '_')).reverse.dropWhile
    (fun c => c == '.' || c == '_')).reverse

/-- `werkzeug.utils.secure_filename` (see module docstring for the
modelling of the unicode step). -/
def secure_filename (s : PyStr) : PyStr :=
  strip_dot_underscore
    ((join_underscore (py_split_ws (sep_to_space (ascii_filter s)))).filter allowed_char)

/-! ## Code generation and file metadata (app.py lines 71-84) -/

/-- `string.digits`. -/
def string_digits : List Char := ['0', '1', '2', '3', '4', '5', '6', '7', '8', '9']

/-- `generate_code(length=6)`: six independent uniform draws from
`string.digits` (`random.choices(string.digits, k=6)`).  The random
source is made explicit as a function giving each draw. -/
def generate_code (choices : Fin 6 → Fin 10) : PyStr :=
  (List.finRange 6).map (fun i => string_digits.get ((choices i).cast (by decide)))

/-- Final path component (`pathlib` `name`): the part after the last `/`. -/
def last_component (s : PyStr) : PyStr := (s.reverse.takeWhile (fun c => c ≠ '/')).reverse

/-- `Path(filename).suffix`: `name[i:]` for `i = name.rfind('.')` when
`0 < i < len(name) - 1`, else the empty string. -/
def path_suffix (s : PyStr) : PyStr :=
  let name := last_component s
  let ext := (name.reverse.takeWhile (fun c => c ≠ '.')).reverse
  if name.contains '.' && !ext.isEmpty && ext.length + 1 < name.length then
    '.' :: ext
  else []

/-- `get_file_type`: `Path(filename).suffix.lstrip('.')`, uppercased,
or `"FILE"` when empty. -/
def get_file_type (filename : PyStr) : PyStr :=
  let ext := (path_suffix filename).dropWhile (fun c => c = '.')
  if ext.isEmpty then pstr "FILE" else ext.map Char.toUpper

/-! ## Data model: FileRecord, Session, registry -/

/-- One entry of a session's `files` list (app.py lines 193-198).  The
human-readable size string is display-only plumbing; the raw byte count
is kept instead. -/
structure FileRecord where
  filename : PyStr
  original_name : PyStr
  size : Nat
  ftype : PyStr
deriving DecidableEq

/-- A `file_store` value: `{"files": [...], "timestamp": datetime}`,
with the timestamp in integer microseconds. -/
structure Session where
  files : List FileRecord
  timestamp : Int
deriving DecidableEq

/-- The `file_store` dict: code → session, in insertion order. -/
abbrev Store := List (PyStr × Session)

/-- Python `code in file_store` / `file_store[code]` read: first match. -/
def dictGet (d : Store) (k : PyStr) : Option Session :=
  match d with
  | [] => none
  | kv :: rest => if kv.1 = k then some kv.2 else dictGet rest k

/-- Python `file_store[code] = v`: replace in place if the key exists,
else append (ordered-dict update semantics). -/
def dictSet (d : Store) (k : PyStr) (v : Session) : Store :=
  match d with
  | [] => [(k, v)]
  | kv :: rest => if kv.1 = k then (k, v) :: rest else kv :: dictSet rest k v

/-! ## The uploads directory -/

/-- `file.save(path)`: after saving, the name is present (saving over an
existing name overwrites its bytes; the set of names gains at most one
element). -/
def diskSave (d : List PyStr) (n : PyStr) : List PyStr :=
  if n ∈ d then d else d ++ [n]

/-- `path.unlink(missing_ok=True)`: the name is removed; deleting an
absent name is not an error. -/
def diskUnlink (d : List PyStr) (n : PyStr) : List PyStr :=
  d.filter (fun m => m ≠ n)

/-! ## Upload handler (`index`, app.py lines 158-220, POST branch) -/

/-- One file of a multipart upload request: the user-supplied filename
and the byte size that `path.stat().st_size` reports after saving. -/
structure IncomingFile where
  filename : PyStr
  size : Nat
deriving DecidableEq

/-- Stored on-disk name: `f"{code}_{safe_name}"` (app.py line 175). -/
def stored_name (code name : PyStr) : PyStr := code ++ '_' :: secure_filename name

/-- The dict appended to `uploaded_files` for one accepted file
(app.py lines 193-198). -/
def mkRecord (code : PyStr) (f : IncomingFile) : FileRecord :=
  ⟨stored_name code f.filename, f.filename, f.size, get_file_type f.filename⟩

/-- Outcome of the `for file in files` loop. -/
inductive LoopOut where
  | errTotal (disk : List PyStr)
  | errSingle (disk : List PyStr)
  | done (uploaded : List FileRecord) (disk : List PyStr)
deriving DecidableEq

/-- The upload loop (app.py lines 169-198): skip empty filenames, save
the file, accumulate the total, reject on either size ceiling (the
aggregate check deletes every file of the batch saved so far, the
single-file check deletes only the current file), otherwise append the
record and continue. -/
def uploadLoop (code : PyStr) : List IncomingFile → List FileRecord → Nat →
    List PyStr → LoopOut
  | [], uploaded, _, disk => .done uploaded disk
  | f :: rest, uploaded, total, disk =>
    if f.filename.isEmpty then uploadLoop code rest uploaded total disk
    else
      let stored := stored_name code f.filename
      let disk1 := diskSave disk stored
      let total1 := total + f.size
      if total1 > MAX_TOTAL_SIZE_BYTES then
        .errTotal (diskUnlink
          (uploaded.foldl (fun d r => diskUnlink d r.filename) disk1) stored)
      else if f.size > MAX_SINGLE_FILE_SIZE_BYTES then
        .errSingle (diskUnlink disk1 stored)
      else uploadLoop code rest (uploaded ++ [mkRecord code f]) total1 disk1

/-- Result of the POST branch of `index`. -/
inductive UploadResult where
  | errNoFiles
  | errTotal
  | errSingle
  | errNoValid
  | ok (code : PyStr) (files : List FileRecord)
deriving DecidableEq

/-- The POST branch of `index` (app.py lines 160-218): reject when no
file has a non-blank name, generate a code, run the upload loop, reject
when nothing valid was accepted, otherwise register the session with a
fresh timestamp. -/
def index_post (store : Store) (disk : List PyStr) (batch : List IncomingFile)
    (choices : Fin 6 → Fin 10) (now : Int) : UploadResult × Store × List PyStr :=
  if batch.isEmpty || batch.all (fun f => (pyStrip f.filename).isEmpty) then
    (.errNoFiles, store, disk)
  else
    match uploadLoop (generate_code choices) batch [] 0 disk with
    | .errTotal d => (.errTotal, store, d)
    | .errSingle d => (.errSingle, store, d)
    | .done recs d =>
      if recs.isEmpty then (.errNoValid, store, d)
      else (.ok (generate_code choices) recs,
            dictSet store (generate_code choices) ⟨recs, now⟩, d)

/-! ## Lookup routes (app.py lines 223-316) -/

/-- Result of the download page. -/
inductive PageResult where
  | invalid
  | page (files : List FileRecord)
deriving DecidableEq

/-- `download_page` (app.py lines 223-243): `if not code or code not in
file_store` renders the "Invalid or expired code" error, else the file
listing.  (The POST variant first applies `str.strip` to the form
field; the lookup itself is identical.)  No TTL check is performed. -/
def download_page (store : Store) (code : PyStr) : PageResult :=
  if code.isEmpty then .invalid
  else
    match dictGet store code with
    | none => .invalid
    | some data => .page data.files

/-- Result of `get_file`: both failures are HTTP 404. -/
inductive GetFileResult where
  | notFound
  | invalidIndex
  | file (stored original : PyStr)
deriving DecidableEq

/-- `get_file` (app.py lines 246-261): 404 when the code is absent, 404
when the index is out of `[0, len(files))`, else serve the stored file
under its original name.  The Flask `<int:index>` converter admits only
non-negative integers, hence `index : Nat`.  No TTL check is
performed. -/
def get_file (store : Store) (code : PyStr) (index : Nat) : GetFileResult :=
  match dictGet store code with
  | none => .notFound
  | some data =>
    match data.files.get? index with
    | some info => .file info.filename info.original_name
    | none => .invalidIndex

/-- Result of `get_all_files`: a direct stream, or a zip archive given
by its download name and its entries as (entry name, source file). -/
inductive AllFilesResult where
  | notFound
  | single (stored original : PyStr)
  | zip (archive : PyStr) (entries : List (PyStr × PyStr))
deriving DecidableEq

/-- `get_all_files` (app.py lines 264-294): 404 when the code is
absent; a session with exactly one file is streamed directly; otherwise
a zip named `files_<code>.zip` is built containing, for each record
whose stored file is still on disk (`path.is_file()`), an entry named
by the record's original name.  No TTL check is performed. -/
def get_all_files (store : Store) (disk : List PyStr) (code : PyStr) : AllFilesResult :=
  match dictGet store code with
  | none => .notFound
  | some data =>
    match data.files with
    | [info] => .single info.filename info.original_name
    | files =>
      .zip (pstr "files_" ++ code ++ pstr ".zip")
        ((files.filter (fun i => decide (i.filename ∈ disk))).map
          (fun i => (i.original_name, i.filename)))

/-- The JSON object returned by `api_check`; `minutes`/`seconds` are
absent from the invalid answer. -/
structure CheckResult where
  valid : Bool
  expired : Bool
  remaining_seconds : Nat
  minutes : Option Nat
  seconds : Option Nat
deriving DecidableEq

/-- The `{valid: False, expired: True, remaining_seconds: 0}` answer. -/
def invalidCheck : CheckResult := ⟨false, true, 0, none, none⟩

/-- `api_check` (app.py lines 297-316): absent code → invalid;
`remaining = timedelta(minutes=15) - (now - ts)` non-positive →
invalid; else `int(remaining)`, `int(remaining // 60)`,
`int(remaining % 60)`.  With exact microsecond arithmetic and a
positive remainder these are the integer divisions below. -/
def api_check (store : Store) (code : PyStr) (now_us : Int) : CheckResult :=
  match dictGet store code with
  | none => invalidCheck
  | some data =>
    let remaining_us : Int := TTL_US - (now_us - data.timestamp)
    if remaining_us ≤ 0 then invalidCheck
    else
      ⟨true, false, remaining_us.toNat / 1000000,
        some (remaining_us.toNat / 60000000),
        some ((remaining_us.toNat / 1000000) % 60)⟩

/-! ## Background cleanup (`cleanup_old_files`, app.py lines 90-152) -/

/-- One entry of `Path(UPLOAD_FOLDER).iterdir()` as the sweep sees it:
name, modification time (seconds), whether it is a regular file, and
whether `unlink` would raise for it (permissions, concurrent
deletion). -/
structure DirEntry where
  name : PyStr
  mtime : Int
  isFile : Bool
  unlinkFails : Bool
deriving DecidableEq

/-- The expression `path.name[:6].isdigit() and path.name[6] == '_'`
(app.py line 122).  Python `and` short-circuits, so `name[6]` is only
evaluated — and can only raise `IndexError` — when the first conjunct
is true, i.e. when the first `min 6 (len name)` characters are a
non-empty run of digits. -/
def pattern_expr (name : PyStr) : Except Unit Bool :=
  if !(name.take 6).isEmpty && (name.take 6).all Char.isDigit then
    match name.get? 6 with
    | none => .error ()
    | some c => .ok (decide (c = '_'))
  else .ok false

/-- Processing of one directory entry by the sweep (app.py lines
106-128): skip non-files; delete expired files (a failing `unlink` is
caught by the inner `try` and logged); otherwise delete the entry when
it does not match the `6digits_` pattern (again with a caught `unlink`);
an `IndexError` from the pattern expression escapes the entry.  The
result is the deleted name, if any. -/
def sweepEntry (now : Int) (e : DirEntry) : Except Unit (Option PyStr) :=
  if !e.isFile then .ok none
  else if now - e.mtime > EXPIRATION_SECONDS then
    .ok (if e.unlinkFails then none else some e.name)
  else
    match pattern_expr e.name with
    | .error u => .error u
    | .ok b =>
      if !b then .ok (if e.unlinkFails then none else some e.name)
      else .ok none

/-- The `for path in upload_path.iterdir()` loop of one pass: an
exception escaping `sweepEntry` propagates out of the loop, so the
remaining entries are not processed; the deletions already performed
are kept. -/
def sweepPass (now : Int) : List DirEntry → List PyStr × Option Unit
  | [] => ([], none)
  | e :: rest =>
    match sweepEntry now e with
    | .error u => ([], some u)
    | .ok none => sweepPass now rest
    | .ok (some n) =>
      match sweepPass now rest with
      | (ds, err) => (n :: ds, err)

/-- The deletions a pass performs when no entry raises. -/
def expectedDeletions (now : Int) (entries : List DirEntry) : List PyStr :=
  entries.filterMap (fun e =>
    match sweepEntry now e with
    | .ok (some n) => some n
    | _ => none)

/-- The memory-store sweep (app.py lines 136-144): collect the codes
whose age strictly exceeds the TTL, then delete them. -/
def memorySweep (store : Store) (now_us : Int) : Store :=
  store.filter (fun kv => !(decide (now_us - kv.2.timestamp > TTL_US)))

/-- The observable outcome of one iteration of the `while True` loop:
the disk deletions performed, the error caught by the outer
`except Exception` handler (if any), and the resulting registry.  The
iteration always returns; the loop then sleeps and retries. -/
structure PassOutcome where
  deletedDisk : List PyStr
  caughtError : Option Unit
  store : Store
deriving DecidableEq

/-- One iteration of `cleanup_old_files` (app.py lines 94-149): run the
disk sweep; an exception escaping it skips the memory sweep for this
pass and is caught by the outer handler; otherwise run the memory
sweep. -/
def cleanupIteration (entries : List DirEntry) (store : Store) (now : Int)
    (now_us : Int) : PassOutcome :=
  match sweepPass now entries with
  | (deleted, some u) => ⟨deleted, some u, store⟩
  | (deleted, none) => ⟨deleted, none, memorySweep store now_us⟩

/-! ## Derived definitions used by the statements -/

instance {ε α : Type} [DecidableEq ε] [DecidableEq α] : DecidableEq (Except ε α) :=
  fun a b =>
  match a, b with
  | .error u, .error v =>
    if h : u = v then isTrue (by rw [h]) else isFalse (by intro hc; cases hc; exact h rfl)
  | .ok x, .ok y =>
    if h : x = y then isTrue (by rw [h]) else isFalse (by intro hc; cases hc; exact h rfl)
  | .error _, .ok _ => isFalse (by intro hc; cases hc)
  | .ok _, .error _ => isFalse (by intro hc; cases hc)

/-- The stored names the upload handler generates for the accepted
(non-blank-named) files of a batch under a given code. -/
def batchStoredNames (code : PyStr) (batch : List IncomingFile) : List PyStr :=
  (batch.filter (fun f => !f.filename.isEmpty)).map (fun f => stored_name code f.filename)

/-- A stored name is a safe single path component: joined to the upload
directory it cannot escape it. -/
def staysInUploadDir (n : PyStr) : Prop :=
  n ≠ [] ∧ '/' ∉ n ∧ n ≠ pstr "." ∧ n ≠ pstr ".."

/-- A concrete random source whose six draws are 1,2,3,4,5,6, giving
the code `"123456"`. -/
def demoChoices : Fin 6 → Fin 10 := fun i => ⟨(i.val + 1) % 10, Nat.mod_lt _ (by norm_num)⟩

/-! ## General helper lemmas -/

theorem mem_of_mem_dropWhile {α : Type} {p : α → Bool} {l : List α} {a : α}
    (h : a ∈ l.dropWhile p) : a ∈ l := by
  induction l with
  | nil => simp at h
  | cons b t ih =>
    rw [List.dropWhile_cons] at h
    by_cases hb : p b
    · simp only [hb, if_true] at h
      exact List.mem_cons_of_mem _ (ih h)
    · simpa [hb] using h

theorem mem_of_mem_strip_dot_underscore {s : PyStr} {c : Char}
    (h : c ∈ strip_dot_underscore s) : c ∈ s := by
  unfold strip_dot_underscore at h
  rw [List.mem_reverse] at h
  have h1 := mem_of_mem_dropWhile h
  rw [List.mem_reverse] at h1
  exact mem_of_mem_dropWhile h1

theorem secure_filename_allowed {s : PyStr} {c : Char} (h : c ∈ secure_filename s) :
    allowed_char c = true := by
  unfold secure_filename at h
  exact (List.mem_filter.mp (mem_of_mem_strip_dot_underscore h)).2

theorem digit_of_mem_string_digits {c : Char} (h : c ∈ string_digits) :
    c.isDigit = true := by
  simp only [string_digits, List.mem_cons, List.not_mem_nil, or_false] at h
  rcases h with rfl | rfl | rfl | rfl | rfl | rfl | rfl | rfl | rfl | rfl <;> decide

theorem generate_code_length (choices : Fin 6 → Fin 10) :
    (generate_code choices).length = 6 := by
  simp [generate_code]

theorem generate_code_digits (choices : Fin 6 → Fin 10) :
    ∀ c ∈ generate_code choices, c.isDigit = true := by
  intro c hc
  rw [generate_code, List.mem_map] at hc
  obtain ⟨i, -, rfl⟩ := hc
  exact digit_of_mem_string_digits (List.get_mem _ _ _)

/-! ## Dict lemmas -/

theorem dictGet_dictSet_self (d : Store) (k : PyStr) (v : Session) :
    dictGet (dictSet d k v) k = some v := by
  induction d with
  | nil => simp [dictSet, dictGet]
  | cons kv rest ih =>
    by_cases h : kv.1 = k
    · simp [dictSet, dictGet, h]
    · simp [dictSet, dictGet, h, ih]

theorem dictGet_dictSet_ne (d : Store) (k k' : PyStr) (v : Session) (h : k' ≠ k) :
    dictGet (dictSet d k v) k' = dictGet d k' := by
  induction d with
  | nil => simp [dictSet, dictGet, Ne.symm h]
  | cons kv rest ih =>
    by_cases hk : kv.1 = k
    · simp [dictSet, dictGet, hk, Ne.symm h]
    · simp [dictSet, dictGet, hk, ih]

theorem mem_keys_dictSet {d : Store} {k k' : PyStr} {v : Session}
    (h : k' ∈ (dictSet d k v).map Prod.fst) : k' ∈ d.map Prod.fst ∨ k' = k := by
  induction d with
  | nil =>
    simp only [dictSet, List.map_cons, List.map_nil, List.mem_cons,
      List.not_mem_nil, or_false] at h
    right; exact h
  | cons kv rest ih =>
    by_cases hk : kv.1 = k
    · simp only [dictSet, hk, if_true, List.map_cons, List.mem_cons] at h
      rcases h with h | h
      · right; exact h
      · left; rw [List.map_cons, List.mem_cons]; right; exact h
    · simp only [dictSet, hk, if_false, List.map_cons, List.mem_cons] at h
      rcases h with h | h
      · left; rw [List.map_cons, List.mem_cons]; left; exact h
      · rcases ih h with h1 | h1
        · left; rw [List.map_cons, List.mem_cons]; right; exact h1
        · right; exact h1

theorem dictSet_keys_nodup {d : Store} {k : PyStr} {v : Session}
    (h : (d.map Prod.fst).Nodup) : ((dictSet d k v).map Prod.fst).Nodup := by
  induction d with
  | nil => simp [dictSet]
  | cons kv rest ih =>
    rw [List.map_cons, List.nodup_cons] at h
    by_cases hk : kv.1 = k
    · simp only [dictSet, hk, if_true, List.map_cons, List.nodup_cons]
      exact ⟨hk ▸ h.1, h.2⟩
    · simp only [dictSet, hk, if_false, List.map_cons, List.nodup_cons]
      refine ⟨?_, ih h.2⟩
      intro hmem
      rcases mem_keys_dictSet hmem with h1 | h1
      · exact h.1 h1
      · exact hk h1

/-! ## Stored names: shape lemmas -/

theorem stored_name_take (choices : Fin 6 → Fin 10) (name : PyStr) :
    (stored_name (generate_code choices) name).take 6 = generate_code choices := by
  rw [stored_name, ← generate_code_length choices]
  exact List.take_left _ _

theorem stored_name_get_six (choices : Fin 6 → Fin 10) (name : PyStr) :
    (stored_name (generate_code choices) name).get? 6 = some '_' := by
  have hlen := generate_code_length choices
  rw [stored_name, List.get?_eq_getElem?, List.getElem?_append_right (by omega)]
  simp [hlen]

theorem pattern_expr_stored_name (choices : Fin 6 → Fin 10) (name : PyStr) :
    pattern_expr (stored_name (generate_code choices) name) = .ok true := by
  have hall : (generate_code choices).all Char.isDigit = true :=
    List.all_eq_true.mpr (generate_code_digits choices)
  have hne : (generate_code choices).isEmpty = false := by
    cases h : generate_code choices with
    | nil => have := generate_code_length choices; rw [h] at this; simp at this
    | cons c0 cs => rfl
  unfold pattern_expr
  rw [stored_name_take, stored_name_get_six, hall, hne]
  simp

/-- C5: for every uploaded file — whatever the user-supplied name, path
traversal included — the stored name `<code>_<secure_filename(name)>`
contains no path separator and is neither empty nor `.` nor `..`, so
the on-disk path `uploads/<stored name>` stays inside the upload
directory. -/
theorem stored_name_stays_in_upload_dir (choices : Fin 6 → Fin 10) (name : PyStr) :
    staysInUploadDir (stored_name (generate_code choices) name) := by
  have hlen : (stored_name (generate_code choices) name).length
      = (secure_filename name).length + 7 := by
    simp [stored_name, generate_code_length]
    omega
  refine ⟨?_, ?_, ?_, ?_⟩
  · intro h
    rw [h] at hlen
    simp at hlen
  · intro h
    rw [stored_name, List.mem_append] at h
    rcases h with h | h
    · have := generate_code_digits choices _ h
      simp [Char.isDigit] at this
    · rw [List.mem_cons] at h
      rcases h with h | h
      · exact absurd h (by decide)
      · have := secure_filename_allowed h
        simp [allowed_char] at this
  · intro h
    rw [h] at hlen
    simp [pstr] at hlen
  · intro h
    rw [h] at hlen
    simp [pstr] at hlen

/-! ## Disk-state lemmas -/

theorem diskUnlink_not_mem {d : List PyStr} {n : PyStr} (h : n ∉ d) :
    diskUnlink d n = d := by
  unfold diskUnlink
  rw [List.filter_eq_self]
  intro m hm
  simp only [decide_eq_true_eq]
  intro he
  exact h (he ▸ hm)

theorem foldl_diskUnlink_eq_filter (rs : List FileRecord) (d : List PyStr) :
    rs.foldl (fun acc r => diskUnlink acc r.filename) d
      = d.filter (fun m => decide (m ∉ rs.map FileRecord.filename)) := by
  induction rs generalizing d with
  | nil => simp
  | cons r rs ih =>
    rw [List.foldl_cons, ih]
    unfold diskUnlink
    rw [List.filter_filter]
    apply List.filter_congr
    intro a _
    by_cases h1 : a = r.filename <;> by_cases h2 : a ∈ rs.map FileRecord.filename <;>
      simp [h1, h2]

theorem rollback_eq (disk0 : List PyStr) (rs : List FileRecord) (stored : PyStr)
    (h0 : ∀ n ∈ rs.map FileRecord.filename, n ∉ disk0)
    (h1 : stored ∉ disk0) (h2 : stored ∉ rs.map FileRecord.filename) :
    diskUnlink (rs.foldl (fun acc r => diskUnlink acc r.filename)
        (diskSave (disk0 ++ rs.map FileRecord.filename) stored)) stored = disk0 := by
  have hsave : diskSave (disk0 ++ rs.map FileRecord.filename) stored
      = (disk0 ++ rs.map FileRecord.filename) ++ [stored] := by
    unfold diskSave
    rw [if_neg]
    intro hmem
    rcases List.mem_append.mp hmem with h | h
    · exact h1 h
    · exact h2 h
  rw [hsave, foldl_diskUnlink_eq_filter, List.filter_append, List.filter_append]
  have hd0 : disk0.filter (fun m => decide (m ∉ rs.map FileRecord.filename)) = disk0 := by
    rw [List.filter_eq_self]
    intro m hm
    simp only [decide_eq_true_eq]
    intro hmem
    exact h0 m hmem hm
  have hnames : (rs.map FileRecord.filename).filter
      (fun m => decide (m ∉ rs.map FileRecord.filename)) = [] := by
    rw [List.filter_eq_nil_iff]
    intro a ha
    simp only [decide_eq_true_eq, not_not]
    exact ha
  have hst : [stored].filter (fun m => decide (m ∉ rs.map FileRecord.filename))
      = [stored] := by
    rw [List.filter_eq_self]
    intro m hm
    rw [List.mem_singleton] at hm
    subst hm
    exact decide_eq_true h2
  rw [hd0, hnames, hst]
  unfold diskUnlink
  rw [List.append_nil, List.filter_append]
  have e1 : disk0.filter (fun m => decide (m ≠ stored)) = disk0 := by
    rw [List.filter_eq_self]
    intro m hm
    exact decide_eq_true (fun he => h1 (he ▸ hm))
  have e3 : [stored].filter (fun m => decide (m ≠ stored)) = [] := by
    simp
  rw [e1, e3, List.append_nil]

/-! ## Upload-loop lemmas -/

theorem uploadLoop_done_recs (code : PyStr) (batch : List IncomingFile) :
    ∀ (uploaded : List FileRecord) (total : Nat) (disk : List PyStr)
      (recs : List FileRecord) (dOut : List PyStr),
      uploadLoop code batch uploaded total disk = .done recs dOut →
      recs = uploaded ++ (batch.filter (fun f => !f.filename.isEmpty)).map (mkRecord code) := by
  induction batch with
  | nil =>
    intro uploaded total disk recs dOut h
    rw [uploadLoop] at h
    cases h
    simp
  | cons f rest ih =>
    intro uploaded total disk recs dOut h
    simp only [uploadLoop] at h
    split at h
    · next hf =>
      have := ih _ _ _ _ _ h
      simpa [List.filter_cons, hf] using this
    · next hf =>
      split at h
      · exact absurd h (by simp)
      · split at h
        · exact absurd h (by simp)
        · have hf' : f.filename.isEmpty = false := by
            revert hf
            cases f.filename.isEmpty <;> simp
          have := ih _ _ _ _ _ h
          rw [this, List.append_assoc]
          simp [List.filter_cons, hf']

theorem uploadLoop_errTotal_disk (code : PyStr) (batch : List IncomingFile) :
    ∀ (uploaded : List FileRecord) (total : Nat) (disk0 : List PyStr) (d : List PyStr),
      uploadLoop code batch uploaded total (disk0 ++ uploaded.map FileRecord.filename)
        = .errTotal d →
      ((uploaded.map FileRecord.filename) ++ batchStoredNames code batch).Nodup →
      (∀ n ∈ (uploaded.map FileRecord.filename) ++ batchStoredNames code batch, n ∉ disk0) →
      d = disk0 := by
  induction batch with
  | nil =>
    intro uploaded total disk0 d h _ _
    rw [uploadLoop] at h
    exact absurd h (by simp)
  | cons f rest ih =>
    intro uploaded total disk0 d h hnd hfr
    simp only [uploadLoop] at h
    split at h
    · next hf =>
      have hb : batchStoredNames code (f :: rest) = batchStoredNames code rest := by
        simp [batchStoredNames, List.filter_cons, hf]
      rw [hb] at hnd hfr
      exact ih _ _ _ _ h hnd hfr
    · next hf =>
      have hb : batchStoredNames code (f :: rest)
          = stored_name code f.filename :: batchStoredNames code rest := by
        simp [batchStoredNames, List.filter_cons, hf]
      rw [hb] at hnd hfr
      have hst_disk0 : stored_name code f.filename ∉ disk0 :=
        hfr _ (List.mem_append.mpr (Or.inr (List.mem_cons_self _ _)))
      have hst_names : stored_name code f.filename ∉ uploaded.map FileRecord.filename := by
        intro hmem
        rw [List.nodup_append] at hnd
        exact hnd.2.2 hmem (List.mem_cons_self _ _)
      split at h
      · cases h
        exact rollback_eq disk0 uploaded (stored_name code f.filename)
          (fun n hn => hfr n (List.mem_append.mpr (Or.inl hn)))
          hst_disk0 hst_names
      · split at h
        · exact absurd h (by simp)
        · -- accepted: continue with uploaded ++ [mkRecord code f]
          have hsave : diskSave (disk0 ++ uploaded.map FileRecord.filename)
              (stored_name code f.filename)
              = disk0 ++ (uploaded ++ [mkRecord code f]).map FileRecord.filename := by
            unfold diskSave
            rw [if_neg]
            · simp [mkRecord, List.append_assoc]
            · intro hmem
              rcases List.mem_append.mp hmem with hm | hm
              · exact hst_disk0 hm
              · exact hst_names hm
          rw [hsave] at h
          refine ih _ _ _ _ h ?_ ?_
          · have : (uploaded ++ [mkRecord code f]).map FileRecord.filename
                ++ batchStoredNames code rest
                = uploaded.map FileRecord.filename
                  ++ (stored_name code f.filename :: batchStoredNames code rest) := by
              simp [mkRecord, List.append_assoc]
            rw [this]
            exact hnd
          · intro n hn
            apply hfr n
            rcases List.mem_append.mp hn with hm | hm
            · rw [List.map_append] at hm
              rcases List.mem_append.mp hm with hm1 | hm1
              · exact List.mem_append.mpr (Or.inl hm1)
              · simp only [List.map_cons, List.map_nil, List.mem_cons,
                  List.not_mem_nil, or_false] at hm1
                refine List.mem_append.mpr (Or.inr ?_)
                rw [hm1]
                simp [mkRecord]
            · exact List.mem_append.mpr (Or.inr (List.mem_cons_of_mem _ hm))

/-! ## Inversion lemmas for the upload handler -/

theorem mem_dictSet {d : Store} {k : PyStr} {v : Session} {kv : PyStr × Session}
    (h : kv ∈ dictSet d k v) : kv ∈ d ∨ kv = (k, v) := by
  induction d with
  | nil =>
    simp only [dictSet, List.mem_cons, List.not_mem_nil, or_false] at h
    right; exact h
  | cons a rest ih =>
    by_cases hk : a.1 = k
    · simp only [dictSet, hk, if_true, List.mem_cons] at h
      rcases h with h | h
      · right; exact h
      · left; exact List.mem_cons_of_mem _ h
    · simp only [dictSet, hk, if_false, List.mem_cons] at h
      rcases h with h | h
      · left; rw [h]; exact List.mem_cons_self _ _
      · rcases ih h with h1 | h1
        · left; exact List.mem_cons_of_mem _ h1
        · right; exact h1

theorem index_post_ok_inv (store : Store) (disk : List PyStr) (batch : List IncomingFile)
    (choices : Fin 6 → Fin 10) (now : Int) (code : PyStr) (recs : List FileRecord)
    (store' : Store) (disk' : List PyStr)
    (h : index_post store disk batch choices now = (.ok code recs, store', disk')) :
    code = generate_code choices ∧
    recs = (batch.filter (fun f => !f.filename.isEmpty)).map (mkRecord code) ∧
    recs ≠ [] ∧
    store' = dictSet store code ⟨recs, now⟩ := by
  unfold index_post at h
  split at h
  · exact absurd h (by simp)
  · split at h
    · exact absurd h (by simp)
    · exact absurd h (by simp)
    · next recs0 d heq =>
      split at h
      · exact absurd h (by simp)
      · next hne =>
        simp only [Prod.mk.injEq, UploadResult.ok.injEq] at h
        obtain ⟨⟨hcode, hrecs⟩, hstore, -⟩ := h
        subst hcode
        subst hrecs
        refine ⟨rfl, ?_, by simpa using hne, hstore.symm⟩
        have := uploadLoop_done_recs (generate_code choices) batch _ _ _ _ _ heq
        simpa using this

theorem index_post_registry_shape (store : Store) (disk : List PyStr)
    (batch : List IncomingFile) (choices : Fin 6 → Fin 10) (now : Int) :
    (index_post store disk batch choices now).2.1 = store ∨
    ∃ recs, recs ≠ [] ∧
      (index_post store disk batch choices now).1 = .ok (generate_code choices) recs ∧
      (index_post store disk batch choices now).2.1
        = dictSet store (generate_code choices) ⟨recs, now⟩ := by
  unfold index_post
  split
  · left; rfl
  · split
    · left; rfl
    · left; rfl
    · split
      · left; rfl
      · next hne => right; exact ⟨_, by simpa using hne, rfl, rfl⟩

/-! ## C1 — lookups versus the TTL -/

/-- C1 counterexample: a session that is past the 15-minute TTL but has
not yet been removed by the reaper is still served by `download_page`,
`get_file` and `get_all_files` — only `api_check` treats it as expired.
At this concrete state (created at time 0, queried 1000 s later) the
claim that every lookup treats an expired session as Absent is false. -/
theorem expired_session_still_served :
    TTL_US ≤ (1000 * 1000000 : Int) - 0 ∧
    download_page
        [(pstr "111111", ⟨[⟨pstr "111111_a.txt", pstr "a.txt", 3, pstr "TXT"⟩], 0⟩)]
        (pstr "111111")
      = .page [⟨pstr "111111_a.txt", pstr "a.txt", 3, pstr "TXT"⟩] ∧
    get_file
        [(pstr "111111", ⟨[⟨pstr "111111_a.txt", pstr "a.txt", 3, pstr "TXT"⟩], 0⟩)]
        (pstr "111111") 0
      = .file (pstr "111111_a.txt") (pstr "a.txt") ∧
    get_all_files
        [(pstr "111111", ⟨[⟨pstr "111111_a.txt", pstr "a.txt", 3, pstr "TXT"⟩], 0⟩)]
        [pstr "111111_a.txt"] (pstr "111111")
      = .single (pstr "111111_a.txt") (pstr "a.txt") ∧
    api_check
        [(pstr "111111", ⟨[⟨pstr "111111_a.txt", pstr "a.txt", 3, pstr "TXT"⟩], 0⟩)]
        (pstr "111111") (1000 * 1000000)
      = invalidCheck := by
  decide

/-- C1 (amended): every lookup treats a code that is absent from the
registry as Absent (invalid / 404 / expired), and `api_check` — alone
among the four — additionally applies the lazy TTL check, answering
invalid for a session whose age has reached the TTL even before the
reaper removes it.  `download_page`, `get_file` and `get_all_files`
consult only registry membership. -/
theorem absent_code_lookups_and_lazy_api_check (store : Store) (code : PyStr)
    (now_us : Int) :
    (dictGet store code = none →
      download_page store code = .invalid ∧
      (∀ i, get_file store code i = .notFound) ∧
      (∀ disk, get_all_files store disk code = .notFound) ∧
      api_check store code now_us = invalidCheck) ∧
    (∀ s, dictGet store code = some s → TTL_US ≤ now_us - s.timestamp →
      api_check store code now_us = invalidCheck) := by
  constructor
  · intro h
    refine ⟨?_, ?_, ?_, ?_⟩
    · unfold download_page
      rw [h]
      split <;> rfl
    · intro i
      unfold get_file
      rw [h]
    · intro disk
      unfold get_all_files
      rw [h]
    · unfold api_check
      rw [h]
  · intro s hs hexp
    unfold api_check
    rw [hs]
    have hle : TTL_US - (now_us - s.timestamp) ≤ 0 := by omega
    simp [hle]

/-- Witness for `absent_code_lookups_and_lazy_api_check` at the empty
registry and the code `"000000"`. -/
theorem absent_code_lookups_witness :
    download_page [] (pstr "000000") = .invalid ∧
    get_file [] (pstr "000000") 0 = .notFound ∧
    get_all_files [] [] (pstr "000000") = .notFound ∧
    api_check [] (pstr "000000") 0 = invalidCheck := by
  have h := (absent_code_lookups_and_lazy_api_check [] (pstr "000000") 0).1 rfl
  exact ⟨h.1, h.2.1 0, h.2.2.1 [], h.2.2.2⟩

/-! ## C7 — the status check -/

/-- C7: for a live session (`0 ≤ age < TTL`) `api_check` answers
`valid = true`, `expired = false`, `remaining_seconds` equal to the
integer part of 900 s minus the elapsed time, with
`minutes = remaining_seconds / 60` and `seconds = remaining_seconds % 60`;
for an unknown code, or a session whose age has reached the TTL, it
answers `valid = false`, `expired = true`, `remaining_seconds = 0`. -/
theorem api_check_spec (store : Store) (code : PyStr) (now_us : Int) :
    (dictGet store code = none → api_check store code now_us = invalidCheck) ∧
    (∀ s, dictGet store code = some s → TTL_US ≤ now_us - s.timestamp →
      api_check store code now_us = invalidCheck) ∧
    (∀ s, dictGet store code = some s → 0 ≤ now_us - s.timestamp →
      now_us - s.timestamp < TTL_US →
      api_check store code now_us =
        ⟨true, false, (TTL_US - (now_us - s.timestamp)).toNat / 1000000,
          some ((TTL_US - (now_us - s.timestamp)).toNat / 1000000 / 60),
          some (((TTL_US - (now_us - s.timestamp)).toNat / 1000000) % 60)⟩) := by
  refine ⟨?_, ?_, ?_⟩
  · intro h
    unfold api_check
    rw [h]
  · intro s hs hexp
    unfold api_check
    rw [hs]
    have hle : TTL_US - (now_us - s.timestamp) ≤ 0 := by omega
    simp [hle]
  · intro s hs h0 hlt
    unfold api_check
    rw [hs]
    have hpos : ¬ (TTL_US - (now_us - s.timestamp) ≤ 0) := by omega
    simp only [hpos, if_false]
    have hm : (TTL_US - (now_us - s.timestamp)).toNat / 1000000 / 60
        = (TTL_US - (now_us - s.timestamp)).toNat / 60000000 := by
      rw [Nat.div_div_eq_div_mul]
    rw [hm]

/-- Witness for `api_check_spec`: a session created at time 0 and
checked 10 s later has 890 s = 14 min 50 s remaining. -/
theorem api_check_spec_witness :
    api_check [(pstr "654321", ⟨[⟨pstr "654321_a.txt", pstr "a.txt", 3, pstr "TXT"⟩], 0⟩)]
        (pstr "654321") (10 * 1000000)
      = ⟨true, false, 890, some 14, some 50⟩ := by
  have h := (api_check_spec
      [(pstr "654321", ⟨[⟨pstr "654321_a.txt", pstr "a.txt", 3, pstr "TXT"⟩], 0⟩)]
      (pstr "654321") (10 * 1000000)).2.2
      ⟨[⟨pstr "654321_a.txt", pstr "a.txt", 3, pstr "TXT"⟩], 0⟩
      (by decide) (by decide) (by decide)
  exact h.trans (by decide)

/-! ## C2 — size ceilings and rollback -/

/-- C2 counterexample: a batch of a 1000-byte file followed by an 85 MB
file violates the single-file ceiling (85 MB > 80 MB) while keeping the
running total under 100 MB.  The handler returns the single-file-size
error and deletes only the offending file: the first file of the batch
remains on disk, so the claim that zero files of a rejected batch
remain on disk is false. -/
theorem single_file_limit_leaves_earlier_file :
    (index_post [] [] [⟨pstr "a.txt", 1000⟩, ⟨pstr "b.bin", 89128960⟩] demoChoices 0).1
      = .errSingle ∧
    (index_post [] [] [⟨pstr "a.txt", 1000⟩, ⟨pstr "b.bin", 89128960⟩] demoChoices 0).2.2
      = [pstr "123456_a.txt"] := by
  decide

/-- C2 (amended): when the cumulative 100 MB ceiling is violated the
handler reports the total-size error, removes every file of the batch
from disk (rollback) and leaves the registry unchanged; when the 80 MB
single-file ceiling is violated the handler reports the single-file
error and leaves the registry unchanged, but it deletes only the
offending file, so earlier files of the batch may remain on disk until
the reaper collects them.  The rollback statement assumes the batch's
stored names are pairwise distinct and not already present in the
upload directory (in operation the fresh 6-digit code prefix provides
this). -/
theorem size_ceiling_rollback (store : Store) (disk : List PyStr)
    (batch : List IncomingFile) (choices : Fin 6 → Fin 10) (now : Int)
    (hnd : (batchStoredNames (generate_code choices) batch).Nodup)
    (hfr : ∀ n ∈ batchStoredNames (generate_code choices) batch, n ∉ disk) :
    ((index_post store disk batch choices now).1 = .errTotal →
      (index_post store disk batch choices now).2.1 = store ∧
      (index_post store disk batch choices now).2.2 = disk) ∧
    ((index_post store disk batch choices now).1 = .errSingle →
      (index_post store disk batch choices now).2.1 = store) := by
  unfold index_post
  split
  · exact ⟨fun hc => by simp at hc, fun hc => by simp at hc⟩
  · split
    · next d heq =>
      refine ⟨fun _ => ⟨rfl, ?_⟩, fun hc => by simp at hc⟩
      have h0 : uploadLoop (generate_code choices) batch [] 0
          (disk ++ ([] : List FileRecord).map FileRecord.filename) = .errTotal d := by
        simpa using heq
      refine uploadLoop_errTotal_disk (generate_code choices) batch [] 0 disk d h0 ?_ ?_
      · simpa using hnd
      · simpa using hfr
    · exact ⟨fun hc => by simp at hc, fun _ => rfl⟩
    · split
      · exact ⟨fun hc => by simp at hc, fun hc => by simp at hc⟩
      · exact ⟨fun hc => by simp at hc, fun hc => by simp at hc⟩

/-- Witness for `size_ceiling_rollback`: a 60 MB + 50 MB batch exceeds
the 100 MB ceiling at the second file; the registry and the (empty)
upload directory are restored exactly. -/
theorem size_ceiling_rollback_witness :
    (index_post [] [] [⟨pstr "a.txt", 62914560⟩, ⟨pstr "b.bin", 52428800⟩]
        demoChoices 0).2.1 = ([] : Store) ∧
    (index_post [] [] [⟨pstr "a.txt", 62914560⟩, ⟨pstr "b.bin", 52428800⟩]
        demoChoices 0).2.2 = ([] : List PyStr) := by
  have h := (size_ceiling_rollback [] [] [⟨pstr "a.txt", 62914560⟩, ⟨pstr "b.bin", 52428800⟩]
      demoChoices 0 (by decide) (by decide)).1 (by decide)
  exact ⟨h.1, h.2⟩

/-! ## C3 — code generation and collisions -/

/-- C3 counterexample: `generate_code` performs no collision check
against the registry.  With the code `"123456"` live in the registry, a
random source drawing 1,2,3,4,5,6 generates exactly that code, and the
subsequent upload overwrites the live session, so the claim that the
generated code always differs from every live code is false. -/
theorem generate_code_collision_possible :
    dictGet [(pstr "123456", ⟨[⟨pstr "123456_x.txt", pstr "x.txt", 1, pstr "TXT"⟩], 0⟩)]
        (generate_code demoChoices)
      = some ⟨[⟨pstr "123456_x.txt", pstr "x.txt", 1, pstr "TXT"⟩], 0⟩ ∧
    (index_post [(pstr "123456", ⟨[⟨pstr "123456_x.txt", pstr "x.txt", 1, pstr "TXT"⟩], 0⟩)]
        [] [⟨pstr "y.txt", 2⟩] demoChoices 99).2.1
      = [(pstr "123456", ⟨[⟨pstr "123456_y.txt", pstr "y.txt", 2, pstr "TXT"⟩], 99⟩)] := by
  decide

/-- C3 (amended): `generate_code` always yields a string of six digits,
but with no collision check a generated code may equal a live code, in
which case registration overwrites the existing session (dict update
semantics).  Consequently the registry never holds two entries with the
same code — no two live sessions share a code — even though the
generated code is not guaranteed fresh. -/
theorem registry_keys_unique_after_upload (store : Store) (disk : List PyStr)
    (batch : List IncomingFile) (choices : Fin 6 → Fin 10) (now : Int)
    (h : (store.map Prod.fst).Nodup) :
    (((index_post store disk batch choices now).2.1).map Prod.fst).Nodup ∧
    (generate_code choices).length = 6 ∧
    (∀ c ∈ generate_code choices, c.isDigit = true) := by
  refine ⟨?_, generate_code_length choices, generate_code_digits choices⟩
  rcases index_post_registry_shape store disk batch choices now with h1 | ⟨recs, -, -, h1⟩
  · rw [h1]; exact h
  · rw [h1]; exact dictSet_keys_nodup h

/-- Witness for `registry_keys_unique_after_upload` at a registry
holding the very code the upload generates (the overwrite case). -/
theorem registry_keys_unique_witness :
    (((index_post [(pstr "123456", ⟨[⟨pstr "123456_x.txt", pstr "x.txt", 1, pstr "TXT"⟩], 0⟩)]
        [] [⟨pstr "y.txt", 2⟩] demoChoices 99).2.1).map Prod.fst).Nodup :=
  (registry_keys_unique_after_upload
    [(pstr "123456", ⟨[⟨pstr "123456_x.txt", pstr "x.txt", 1, pstr "TXT"⟩], 0⟩)]
    [] [⟨pstr "y.txt", 2⟩] demoChoices 99 (by decide)).1

/-! ## C4 — cleanup-sweep fault isolation -/

/-- C4 counterexample: a fresh (unexpired) file named `"123456"` makes
the orphan-pattern expression evaluate `name[6]` on a 6-character
string, raising `IndexError` outside the per-file `try`.  The exception
aborts the rest of that pass: the expired file listed after it is not
deleted, although a pass seeing only that file would delete it.  So a
failure while inspecting one file's name does prevent the sweep from
processing the remaining files of that pass. -/
theorem pattern_indexerror_aborts_sweep :
    sweepPass 100 [⟨pstr "123456", 0, true, false⟩, ⟨pstr "999999_x", -1000, true, false⟩]
      = ([], some ()) ∧
    sweepEntry 100 ⟨pstr "999999_x", -1000, true, false⟩ = .ok (some (pstr "999999_x")) ∧
    sweepPass 100 [⟨pstr "999999_x", -1000, true, false⟩] = ([pstr "999999_x"], none) := by
  decide

/-- C4 (amended): a *deletion* failure for one file is caught by the
per-file handler and never prevents the sweep from processing the
remaining files: whenever an entry's processing does not raise, the
pass continues past it, and a pass in which no entry raises processes
every entry and performs exactly the expected deletions.  The loop
itself survives every pass (the outer handler catches a raising pass,
whose disk deletions so far are kept and whose memory sweep is
skipped).  However an `IndexError` from the orphan-pattern check on an
unexpired file whose name is one to six digits aborts the remainder of
that pass. -/
theorem sweep_isolation (now : Int) (entries : List DirEntry) :
    ((∀ e ∈ entries, sweepEntry now e ≠ .error ()) →
      sweepPass now entries = (expectedDeletions now entries, none)) ∧
    (∀ e rest v, sweepEntry now e = .ok v →
      sweepPass now (e :: rest)
        = (v.toList ++ (sweepPass now rest).1, (sweepPass now rest).2)) ∧
    (∀ store now_us, (cleanupIteration entries store now now_us).caughtError
        = (sweepPass now entries).2) := by
  refine ⟨?_, ?_, ?_⟩
  · induction entries with
    | nil => intro _; rfl
    | cons e rest ih =>
      intro h
      have he := h e (List.mem_cons_self _ _)
      have hrest := ih (fun x hx => h x (List.mem_cons_of_mem _ hx))
      cases hse : sweepEntry now e with
      | error u => cases u; exact absurd hse he
      | ok v =>
        cases v with
        | none =>
          simp only [expectedDeletions] at hrest ⊢
          simp only [sweepPass, hse, List.filterMap_cons]
          exact hrest
        | some n =>
          simp only [expectedDeletions] at hrest ⊢
          simp only [sweepPass, hse, List.filterMap_cons]
          rw [hrest]
  · intro e rest v hse
    cases v with
    | none => simp [sweepPass, hse]
    | some n =>
      simp only [sweepPass, hse]
      cases hsp : sweepPass now rest with
      | mk ds err => simp
  · intro store now_us
    unfold cleanupIteration
    cases hsp : sweepPass now entries with
    | mk ds err =>
      cases err with
      | none => rfl
      | some u => rfl

/-- Witness for `sweep_isolation`: a pass over two expired files where
deleting the first fails (caught and skipped) still deletes the
second. -/
theorem sweep_isolation_witness :
    sweepPass 0 [⟨pstr "111111_a", -10000, true, true⟩, ⟨pstr "111111_b", -10000, true, false⟩]
      = ([pstr "111111_b"], none) := by
  have h := (sweep_isolation 0 [⟨pstr "111111_a", -10000, true, true⟩,
      ⟨pstr "111111_b", -10000, true, false⟩]).1 (by decide)
  exact h.trans (by decide)

/-! ## C6 — bulk download -/

theorem get_all_files_eq (store : Store) (disk : List PyStr) (code : PyStr)
    (s : Session) (hs : dictGet store code = some s) :
    get_all_files store disk code
      = match s.files with
        | [info] => .single info.filename info.original_name
        | files =>
          .zip (pstr "files_" ++ code ++ pstr ".zip")
            ((files.filter (fun i => decide (i.filename ∈ disk))).map
              (fun i => (i.original_name, i.filename))) := by
  unfold get_all_files
  rw [hs]

/-- C6: a session with exactly one file is streamed directly without
archiving; a session with N > 1 files whose blobs are all present on
disk yields a zip archive named `files_<code>.zip` containing exactly N
entries, each named by the file's original (user-supplied) name, in
order, sourced from the stored names. -/
theorem get_all_files_spec (store : Store) (disk : List PyStr) (code : PyStr)
    (s : Session) (hs : dictGet store code = some s) :
    (∀ f, s.files = [f] →
      get_all_files store disk code = .single f.filename f.original_name) ∧
    (1 < s.files.length → (∀ f ∈ s.files, f.filename ∈ disk) →
      get_all_files store disk code
        = .zip (pstr "files_" ++ code ++ pstr ".zip")
            (s.files.map (fun f => (f.original_name, f.filename))) ∧
      (s.files.map (fun f => (f.original_name, f.filename))).length
        = s.files.length) := by
  constructor
  · intro f hf
    rw [get_all_files_eq store disk code s hs, hf]
  · intro hlen hdisk
    refine ⟨?_, by simp⟩
    obtain ⟨a, b, t, hfl⟩ : ∃ a b t, s.files = a :: b :: t := by
      cases hf0 : s.files with
      | nil => rw [hf0] at hlen; simp at hlen
      | cons a rest =>
        cases rest with
        | nil => rw [hf0] at hlen; simp at hlen
        | cons b t => exact ⟨a, b, t, rfl⟩
    rw [hfl] at hdisk
    rw [get_all_files_eq store disk code s hs, hfl]
    have hfe : (a :: b :: t).filter (fun i => decide (i.filename ∈ disk))
        = a :: b :: t := by
      rw [List.filter_eq_self]
      intro m hm
      exact decide_eq_true (hdisk m hm)
    change AllFilesResult.zip (pstr "files_" ++ code ++ pstr ".zip")
        (((a :: b :: t).filter (fun i => decide (i.filename ∈ disk))).map
          (fun i => (i.original_name, i.filename))) = _
    rw [hfe]

/-- Witness for `get_all_files_spec`: a two-file session with both
blobs on disk yields a two-entry zip named by the original names. -/
theorem get_all_files_spec_witness :
    get_all_files
        [(pstr "222222", ⟨[⟨pstr "222222_a.txt", pstr "a.txt", 3, pstr "TXT"⟩,
            ⟨pstr "222222_b.bin", pstr "b.bin", 4, pstr "BIN"⟩], 0⟩)]
        [pstr "222222_a.txt", pstr "222222_b.bin"] (pstr "222222")
      = .zip (pstr "files_222222.zip")
          [(pstr "a.txt", pstr "222222_a.txt"), (pstr "b.bin", pstr "222222_b.bin")] := by
  have h := ((get_all_files_spec
      [(pstr "222222", ⟨[⟨pstr "222222_a.txt", pstr "a.txt", 3, pstr "TXT"⟩,
          ⟨pstr "222222_b.bin", pstr "b.bin", 4, pstr "BIN"⟩], 0⟩)]
      [pstr "222222_a.txt", pstr "222222_b.bin"] (pstr "222222")
      ⟨[⟨pstr "222222_a.txt", pstr "a.txt", 3, pstr "TXT"⟩,
          ⟨pstr "222222_b.bin", pstr "b.bin", 4, pstr "BIN"⟩], 0⟩
      (by decide)).2 (by decide) (by decide)).1
  exact h.trans (by decide)

/-! ## C8 — upload order and indexed retrieval -/

/-- C8: on a successful upload the registered file list is exactly, and
in order, the records derived from the accepted (non-empty-named) files
of the request — the i-th record comes from the i-th accepted file —
and `get_file` on the resulting registry returns the i-th record's
stored file under its original name for every i < N, and the
invalid-index 404 for every i ≥ N.  Reads do not mutate the registry
(the lookup is a pure function of it), so repeated reads within the TTL
window return the same record. -/
theorem upload_order_and_indexed_retrieval (store : Store) (disk : List PyStr)
    (batch : List IncomingFile) (choices : Fin 6 → Fin 10) (now : Int)
    (code : PyStr) (recs : List FileRecord) (store' : Store) (disk' : List PyStr)
    (h : index_post store disk batch choices now = (.ok code recs, store', disk')) :
    recs = (batch.filter (fun f => !f.filename.isEmpty)).map (mkRecord code) ∧
    dictGet store' code = some ⟨recs, now⟩ ∧
    ∀ i : Nat, get_file store' code i =
      (match recs.get? i with
       | some r => GetFileResult.file r.filename r.original_name
       | none => GetFileResult.invalidIndex) := by
  obtain ⟨-, hrecs, -, hstore⟩ :=
    index_post_ok_inv store disk batch choices now code recs store' disk' h
  have hget : dictGet store' code = some ⟨recs, now⟩ := by
    rw [hstore]
    exact dictGet_dictSet_self store code ⟨recs, now⟩
  refine ⟨hrecs, hget, ?_⟩
  intro i
  unfold get_file
  rw [hget]

/-- Witness for `upload_order_and_indexed_retrieval`: after uploading
`a.txt` then `b.txt`, index 1 retrieves `b.txt` and index 2 is the
invalid-index 404. -/
theorem upload_order_witness :
    get_file [(pstr "123456", ⟨[⟨pstr "123456_a.txt", pstr "a.txt", 3, pstr "TXT"⟩,
        ⟨pstr "123456_b.txt", pstr "b.txt", 4, pstr "TXT"⟩], 7⟩)] (pstr "123456") 1
      = .file (pstr "123456_b.txt") (pstr "b.txt") ∧
    get_file [(pstr "123456", ⟨[⟨pstr "123456_a.txt", pstr "a.txt", 3, pstr "TXT"⟩,
        ⟨pstr "123456_b.txt", pstr "b.txt", 4, pstr "TXT"⟩], 7⟩)] (pstr "123456") 2
      = .invalidIndex := by
  have h := upload_order_and_indexed_retrieval [] []
      [⟨pstr "a.txt", 3⟩, ⟨pstr "b.txt", 4⟩] demoChoices 7 (pstr "123456")
      [⟨pstr "123456_a.txt", pstr "a.txt", 3, pstr "TXT"⟩,
        ⟨pstr "123456_b.txt", pstr "b.txt", 4, pstr "TXT"⟩]
      [(pstr "123456", ⟨[⟨pstr "123456_a.txt", pstr "a.txt", 3, pstr "TXT"⟩,
        ⟨pstr "123456_b.txt", pstr "b.txt", 4, pstr "TXT"⟩], 7⟩)]
      [pstr "123456_a.txt", pstr "123456_b.txt"] (by decide)
  exact ⟨(h.2.2 1).trans (by decide), (h.2.2 2).trans (by decide)⟩

/-! ## C9 — stored names and the reaper's pattern -/

/-- C9: every record stored by a successful upload has an on-disk name
derived deterministically as the 6-digit code, an underscore, and the
sanitized original filename, and every such name satisfies the
structural pattern the reaper uses to recognise non-orphan files
(`name[:6].isdigit() and name[6] == '_'` evaluates to True without
raising). -/
theorem stored_records_match_reaper_pattern (store : Store) (disk : List PyStr)
    (batch : List IncomingFile) (choices : Fin 6 → Fin 10) (now : Int)
    (code : PyStr) (recs : List FileRecord) (store' : Store) (disk' : List PyStr)
    (h : index_post store disk batch choices now = (.ok code recs, store', disk')) :
    ∀ r ∈ recs, r.filename = stored_name code r.original_name ∧
      pattern_expr r.filename = .ok true := by
  obtain ⟨hcode, hrecs, -, -⟩ :=
    index_post_ok_inv store disk batch choices now code recs store' disk' h
  intro r hr
  rw [hrecs, List.mem_map] at hr
  obtain ⟨f, -, rfl⟩ := hr
  subst hcode
  exact ⟨rfl, pattern_expr_stored_name choices f.filename⟩

/-- Witness for `stored_records_match_reaper_pattern` at a one-file
upload. -/
theorem stored_records_pattern_witness :
    pstr "123456_a.txt" = stored_name (pstr "123456") (pstr "a.txt") ∧
    pattern_expr (pstr "123456_a.txt") = .ok true := by
  have h := stored_records_match_reaper_pattern [] [] [⟨pstr "a.txt", 3⟩] demoChoices 0
      (pstr "123456") [⟨pstr "123456_a.txt", pstr "a.txt", 3, pstr "TXT"⟩]
      [(pstr "123456", ⟨[⟨pstr "123456_a.txt", pstr "a.txt", 3, pstr "TXT"⟩], 0⟩)]
      [pstr "123456_a.txt"] (by decide)
      ⟨pstr "123456_a.txt", pstr "a.txt", 3, pstr "TXT"⟩ (by decide)
  exact ⟨h.1, h.2⟩

/-! ## C10 — registry atomicity -/

/-- C10: on every error path of the upload handler the registry is left
unchanged; on success the registry changes only at the generated code,
which maps to a session with a non-empty file list and the request's
timestamp, set once at creation (sessions are inserted whole and never
partially mutated).  Consequently the invariant that every registered
session has a non-empty file list is preserved by every upload. -/
theorem upload_registry_atomicity (store : Store) (disk : List PyStr)
    (batch : List IncomingFile) (choices : Fin 6 → Fin 10) (now : Int) :
    ((index_post store disk batch choices now).1 = .errNoFiles ∨
     (index_post store disk batch choices now).1 = .errTotal ∨
     (index_post store disk batch choices now).1 = .errSingle ∨
     (index_post store disk batch choices now).1 = .errNoValid →
      (index_post store disk batch choices now).2.1 = store) ∧
    (∀ code recs, (index_post store disk batch choices now).1 = .ok code recs →
      recs ≠ [] ∧
      (index_post store disk batch choices now).2.1 = dictSet store code ⟨recs, now⟩ ∧
      dictGet (index_post store disk batch choices now).2.1 code = some ⟨recs, now⟩ ∧
      ∀ k, k ≠ code →
        dictGet (index_post store disk batch choices now).2.1 k = dictGet store k) ∧
    ((∀ kv ∈ store, kv.2.files ≠ []) →
      ∀ kv ∈ (index_post store disk batch choices now).2.1, kv.2.files ≠ []) := by
  refine ⟨?_, ?_, ?_⟩
  · intro hcase
    rcases index_post_registry_shape store disk batch choices now with h1 | ⟨recs, -, hok, -⟩
    · exact h1
    · rcases hcase with hc | hc | hc | hc <;> rw [hok] at hc <;> simp at hc
  · intro code recs hres
    have h' : index_post store disk batch choices now
        = (.ok code recs, (index_post store disk batch choices now).2.1,
           (index_post store disk batch choices now).2.2) := by
      rw [← hres]
    obtain ⟨-, -, hne, hstore⟩ :=
      index_post_ok_inv store disk batch choices now code recs _ _ h'
    refine ⟨hne, hstore, ?_, ?_⟩
    · rw [hstore]
      exact dictGet_dictSet_self store code ⟨recs, now⟩
    · intro k hk
      rw [hstore]
      exact dictGet_dictSet_ne store code k ⟨recs, now⟩ hk
  · intro hinv kv hkv
    rcases index_post_registry_shape store disk batch choices now with h1 | ⟨recs, hne, -, h1⟩
    · rw [h1] at hkv
      exact hinv kv hkv
    · rw [h1] at hkv
      rcases mem_dictSet hkv with h2 | h2
      · exact hinv kv h2
      · rw [h2]
        exact hne

/-- Witness for `upload_registry_atomicity`: a successful one-file
upload inserts exactly one session, with a non-empty file list, and a
different code remains unmapped; an error upload (blank filename)
leaves the registry empty. -/
theorem upload_registry_atomicity_witness :
    (index_post [] [] [⟨pstr "", 0⟩] demoChoices 0).2.1 = ([] : Store) ∧
    (index_post [] [] [⟨pstr "a.txt", 3⟩] demoChoices 5).2.1
      = dictSet [] (pstr "123456")
          ⟨[⟨pstr "123456_a.txt", pstr "a.txt", 3, pstr "TXT"⟩], 5⟩ ∧
    dictGet (index_post [] [] [⟨pstr "a.txt", 3⟩] demoChoices 5).2.1 (pstr "999999")
      = none := by
  refine ⟨?_, ?_, ?_⟩
  · exact (upload_registry_atomicity [] [] [⟨pstr "", 0⟩] demoChoices 0).1
      (Or.inl (by decide))
  · exact ((upload_registry_atomicity [] [] [⟨pstr "a.txt", 3⟩] demoChoices 5).2.1
      (pstr "123456") [⟨pstr "123456_a.txt", pstr "a.txt", 3, pstr "TXT"⟩]
      (by decide)).2.1
  · have h := ((upload_registry_atomicity [] [] [⟨pstr "a.txt", 3⟩] demoChoices 5).2.1
      (pstr "123456") [⟨pstr "123456_a.txt", pstr "a.txt", 3, pstr "TXT"⟩]
      (by decide)).2.2.2 (pstr "999999") (by decide)
    exact h.trans (by decide)

end FileTransferApp
